import Mathlib

/-!
Verification development for the go-microservices ingestion pipeline.

Shallow embedding of:
* the flexible single/batch JSON decoder of `cmd/ingest-events/main.go`
  (`handleIngest`, array-first decode with single-object fallback);
* the market snapshot flattener of `cmd/ingest-marketdata/main.go`
  (`handleIngest`, lines 136-171: per-token timestamp parsing, the
  last-trade-time sentinel substitution, OHLC defaulting);
* the transactional insert loop shared by both ingestion handlers
  (begin / prepare / exec-per-row / rollback-on-failure / commit);
* `isMarketOpen` of `cmd/on-demand-fetcher/main.go` (lines 269-278).

JSON numbers are modelled as integers (the Go code only copies the numeric
fields verbatim, so the carrier type of a number is irrelevant to every
property proved here); Go `time.Time` values are modelled as calendar
records produced by executable embeddings of Go's `time.Parse` for the
layouts actually used.
-/

/-- JSON values, the input domain of both ingestion handlers.  Objects are
field lists in source order (Go's decoder processes object keys in the
order they appear, later duplicates overwriting earlier ones). -/
inductive Json where
  | null
  | bool (b : Bool)
  | num (n : Int)
  | str (s : String)
  | arr (xs : List Json)
  | obj (fields : List (String × Json))


/-- Numeric value of a decimal digit character. -/
def digitVal (c : Char) : Nat := c.toNat - '0'.toNat

/-- Go `getnum(value, true)`: exactly two decimal digits. -/
def getnum2 : List Char → Option (Nat × List Char)
  | a :: b :: rest =>
    if a.isDigit && b.isDigit then some (10 * digitVal a + digitVal b, rest) else none
  | _ => none

/-- Go `getnum(value, false)`: one or two decimal digits (used for the
hour in the `15` layout element, which tolerates a single digit). -/
def getnum12 : List Char → Option (Nat × List Char)
  | a :: b :: rest =>
    if a.isDigit then
      if b.isDigit then some (10 * digitVal a + digitVal b, rest)
      else some (digitVal a, b :: rest)
    else none
  | [a] => if a.isDigit then some (digitVal a, []) else none
  | [] => none

/-- Four decimal digits, Go's `stdLongYear` layout element. -/
def getnum4 : List Char → Option (Nat × List Char)
  | a :: b :: c :: d :: rest =>
    if a.isDigit && b.isDigit && c.isDigit && d.isDigit then
      some (1000 * digitVal a + 100 * digitVal b + 10 * digitVal c + digitVal d, rest)
    else none
  | _ => none

/-- Consume one expected literal character of a layout. -/
def expectCh (ch : Char) : List Char → Option (List Char)
  | c :: rest => if c = ch then some rest else none
  | [] => none

/-- Gregorian leap-year rule, as in Go's `time` package. -/
def isLeapYear (y : Nat) : Bool :=
  y % 4 = 0 && (y % 100 ≠ 0 || y % 400 = 0)

/-- Days in a month, as validated by Go's `time.Parse` ("day out of range"). -/
def daysInMonth (y m : Nat) : Nat :=
  if m = 2 then (if isLeapYear y then 29 else 28)
  else if m = 4 ∨ m = 6 ∨ m = 9 ∨ m = 11 then 30
  else 31

/-- Calendar value of a Go `time.Time` produced by parsing the
`2006-01-02 15:04:05` layout (no zone or sub-second component arises from
that layout). -/
structure DateTime where
  year : Nat
  month : Nat
  day : Nat
  hour : Nat
  minute : Nat
  second : Nat
deriving DecidableEq

/-- The zero `time.Time` that Go's `time.Parse` returns together with an
error: January 1, year 1, 00:00:00. -/
def goZeroTime : DateTime := ⟨1, 1, 1, 0, 0, 0⟩

/-- The `2006-01-02` part of a layout: four-digit year, two-digit month
and day, separated by hyphens. -/
def parseYMD (r0 : List Char) : Option (Nat × Nat × Nat × List Char) :=
  match getnum4 r0 with
  | none => none
  | some (y, r1) =>
    match expectCh '-' r1 with
    | none => none
    | some r2 =>
      match getnum2 r2 with
      | none => none
      | some (mo, r3) =>
        match expectCh '-' r3 with
        | none => none
        | some r4 =>
          match getnum2 r4 with
          | none => none
          | some (d, r5) => some (y, mo, d, r5)

/-- The `15:04:05` part of a layout; `flexHour` is Go's one-or-two-digit
tolerance for the hour in `time.Parse` (absent from the strict RFC 3339
path). -/
def parseHMS (flexHour : Bool) (r0 : List Char) : Option (Nat × Nat × Nat × List Char) :=
  match (if flexHour then getnum12 r0 else getnum2 r0) with
  | none => none
  | some (h, r1) =>
    match expectCh ':' r1 with
    | none => none
    | some r2 =>
      match getnum2 r2 with
      | none => none
      | some (mi, r3) =>
        match expectCh ':' r3 with
        | none => none
        | some r4 =>
          match getnum2 r4 with
          | none => none
          | some (se, r5) => some (h, mi, se, r5)

/-- Go's range checks on the parsed fields: month 1-12, day within the
month, hour below 24, minute and second below 60. -/
def fieldsOk (y mo d h mi se : Nat) : Bool :=
  1 ≤ mo && mo ≤ 12 && 1 ≤ d && d ≤ daysInMonth y mo && h ≤ 23 && mi ≤ 59 && se ≤ 59

/-- Embedding of Go `time.Parse("2006-01-02 15:04:05", s)`; `none` is the
error case. -/
def goTimeParse (s : String) : Option DateTime :=
  match parseYMD s.data with
  | none => none
  | some (y, mo, d, r5) =>
    match expectCh ' ' r5 with
    | none => none
    | some r6 =>
      match parseHMS true r6 with
      | none => none
      | some (h, mi, se, r11) =>
        if r11 = [] && fieldsOk y mo d h mi se then some ⟨y, mo, d, h, mi, se⟩
        else none

/-- `time.Parse` result as used at `cmd/ingest-marketdata/main.go:137,143`:
the error is discarded with `_`, leaving the zero `time.Time` when the
parse fails. -/
def goParseD (s : String) : DateTime := (goTimeParse s).getD goZeroTime

/-- Calendar value of a Go `time.Time` decoded from JSON (RFC 3339):
wall-clock fields, nanoseconds from the optional fraction, and the zone
offset in minutes (`Z` is offset 0). -/
structure EventTime where
  year : Nat
  month : Nat
  day : Nat
  hour : Nat
  minute : Nat
  second : Nat
  nanos : Nat
  offsetMinutes : Int
deriving DecidableEq

/-- The zero `time.Time` as an `EventTime`. -/
def zeroEventTime : EventTime := ⟨1, 1, 1, 0, 0, 0, 0, 0⟩

/-- Split a character list into its leading run of digits and the rest. -/
def takeDigits : List Char → List Char × List Char
  | [] => ([], [])
  | c :: rest =>
    if c.isDigit then
      let (ds, r) := takeDigits rest
      (c :: ds, r)
    else ([], c :: rest)

/-- Nanoseconds denoted by the digits of a fractional-second part
(nanosecond precision, further digits ignored as in Go). -/
def nanosOfFrac (ds : List Char) : Nat :=
  let d9 := ds.take 9
  (d9.foldl (fun a c => 10 * a + digitVal c) 0) * 10 ^ (9 - d9.length)

/-- RFC 3339 numeric zone offset, or `Z`, as accepted by Go's strict
RFC 3339 parser used by `time.Time.UnmarshalJSON` (offset hour at most 23,
offset minute at most 59). -/
def parseOffset : List Char → Option (Int × List Char)
  | 'Z' :: rest => some (0, rest)
  | c :: rest =>
    if c = '+' ∨ c = '-' then
      match getnum2 rest with
      | none => none
      | some (oh, r1) =>
        match expectCh ':' r1 with
        | none => none
        | some r2 =>
          match getnum2 r2 with
          | none => none
          | some (om, r3) =>
            if oh ≤ 23 && om ≤ 59 then
              let mins : Int := (oh * 60 + om : Nat)
              some (if c = '-' then -mins else mins, r3)
            else none
    else none
  | [] => none

/-- An optional fractional-second part: `.` followed by at least one
digit, or nothing. -/
def parseFrac : List Char → Option (Nat × List Char)
  | '.' :: rest =>
    let p := takeDigits rest
    if p.1 = [] then none else some (nanosOfFrac p.1, p.2)
  | other => some (0, other)

/-- Embedding of the strict RFC 3339 parse performed by
`time.Time.UnmarshalJSON` for the `Event.Timestamp` field of
`internal/models/events.go`: `YYYY-MM-DDTHH:MM:SS`, an optional `.digits`
fraction, then `Z` or a `±HH:MM` offset, with Go's range checks. -/
def parseRFC3339 (s : String) : Option EventTime :=
  match parseYMD s.data with
  | none => none
  | some (y, mo, d, r5) =>
    match expectCh 'T' r5 with
    | none => none
    | some r6 =>
      match parseHMS false r6 with
      | none => none
      | some (h, mi, se, r11) =>
        match parseFrac r11 with
        | none => none
        | some (ns, r12) =>
          match parseOffset r12 with
          | none => none
          | some (off, r13) =>
            if r13 = [] && fieldsOk y mo d h mi se then
              some ⟨y, mo, d, h, mi, se, ns, off⟩
            else none

/-- `models.Event` (`internal/models/events.go`): structured log record.
The Go `map[string]string` context is modelled as an association list in
first-insertion order with later duplicate keys overwriting in place. -/
structure Event where
  timestamp : EventTime
  level : String
  source : String
  message : String
  context : List (String × String)
deriving DecidableEq

/-- The zero `models.Event` that `json.Unmarshal` starts from. -/
def emptyEvent : Event := ⟨zeroEventTime, "", "", "", []⟩

/-- Insert into the modelled string map: overwrite an existing key in
place, else append. -/
def mapInsert (m : List (String × String)) (k v : String) : List (String × String) :=
  if m.any (fun p => p.1 = k) then m.map (fun p => if p.1 = k then (k, v) else p)
  else m ++ [(k, v)]

/-- Decode the fields of a JSON object into a `map[string]string` starting
from an existing map, as Go does for `Event.Context`; a `null` value
stores the zero string, any non-string value is a type error. -/
def decodeStringMapFields : List (String × String) → List (String × Json) →
    Option (List (String × String))
  | m, [] => some m
  | m, (k, Json.str v) :: fs => decodeStringMapFields (mapInsert m k v) fs
  | m, (k, Json.null) :: fs => decodeStringMapFields (mapInsert m k "") fs
  | _, (_, _) :: _ => none

/-- ASCII-case fold of a field name, the effect of Go's `foldName` when
the struct tags are all lowercase (field names match case-insensitively). -/
def asciiLower (s : String) : String := String.mk (s.data.map Char.toLower)

/-- One field of a JSON object applied to a partially-decoded `Event`.
Go matches field names ASCII-case-insensitively against the all-lowercase
struct tags, modelled here by lowercasing the key; unknown fields are
ignored; `null` leaves the field unchanged. -/
def applyEventField (e : Event) (kv : String × Json) : Option Event :=
  let k := asciiLower kv.1
  if k = "timestamp" then
    match kv.2 with
    | Json.str s => (parseRFC3339 s).map (fun t => { e with timestamp := t })
    | Json.null => some e
    | _ => none
  else if k = "level" then
    match kv.2 with
    | Json.str s => some { e with level := s }
    | Json.null => some e
    | _ => none
  else if k = "source" then
    match kv.2 with
    | Json.str s => some { e with source := s }
    | Json.null => some e
    | _ => none
  else if k = "message" then
    match kv.2 with
    | Json.str s => some { e with message := s }
    | Json.null => some e
    | _ => none
  else if k = "context" then
    match kv.2 with
    | Json.obj fs => (decodeStringMapFields e.context fs).map (fun m => { e with context := m })
    | Json.null => some e
    | _ => none
  else some e

/-- Sequential field-folding of a JSON object into a struct value, the
shape of Go's object decoding: fields are processed in order and the
first type error aborts the decode. -/
def decFields {σ : Type} (step : σ → String × Json → Option σ) :
    σ → List (String × Json) → Option σ
  | s, [] => some s
  | s, kv :: fs =>
    match step s kv with
    | none => none
    | some s2 => decFields step s2 fs

/-- `json.Unmarshal` of one JSON value into `models.Event`: an object is
decoded field by field, `null` is a no-op leaving the zero value, and any
other shape is an error. -/
def decodeEvent : Json → Option Event
  | Json.obj fs => decFields applyEventField emptyEvent fs
  | Json.null => some emptyEvent
  | _ => none

/-- Sequential option-valued map, the shape of Go's array decoding. -/
def mapOpt {α β : Type} (f : α → Option β) : List α → Option (List β)
  | [] => some []
  | x :: xs =>
    match f x with
    | none => none
    | some y =>
      match mapOpt f xs with
      | none => none
      | some ys => some (y :: ys)

/-- `json.Unmarshal` of one JSON value into `[]models.Event`: an array
decodes element-wise in order, JSON `null` decodes to the nil slice, and
any other shape is an error. -/
def decodeEventArray : Json → Option (List Event)
  | Json.arr xs => mapOpt decodeEvent xs
  | Json.null => some []
  | _ => none

/-- The flexible decoder of `cmd/ingest-events/main.go` (`handleIngest`):
try the array decode first; if it fails, try a single object and wrap it
in a one-element slice; if both fail, report a decode error (`none`). -/
def flexDecodeEvents (j : Json) : Option (List Event) :=
  match decodeEventArray j with
  | some evs => some evs
  | none =>
    match decodeEvent j with
    | some e => some [e]
    | none => none

/-- `models.Ohlc` (`internal/models/upstox_marketdata.go`). -/
structure Ohlc where
  open_ : Int
  high : Int
  low : Int
  close : Int
  volume : Int
deriving DecidableEq

/-- The zero `models.Ohlc`. -/
def zeroOhlc : Ohlc := ⟨0, 0, 0, 0, 0⟩

/-- `models.TokenInfo` (`internal/models/upstox_marketdata.go`): one
instrument's snapshot; `ohlc` is a nil-able pointer, modelled as an
`Option`. -/
structure TokenInfo where
  timestamp : String
  lastTradeTime : String
  lastPrice : Int
  closePrice : Int
  lastQuantity : Int
  buyQuantity : Int
  sellQuantity : Int
  volume : Int
  averagePrice : Int
  oi : Int
  poi : Int
  oiDayHigh : Int
  oiDayLow : Int
  netChange : Int
  lowerCircuitLimit : Int
  upperCircuitLimit : Int
  yl : Int
  yh : Int
  ohlc : Option Ohlc
deriving DecidableEq

/-- The zero `models.TokenInfo`. -/
def emptyTokenInfo : TokenInfo :=
  ⟨"", "", 0, 0, 0, 0, 0, 0, 0, 0, 0, 0, 0, 0, 0, 0, 0, 0, none⟩

/-- `models.DataStruct`: envelope payload.  The Go
`map[string]TokenInfo` is modelled as an association list in
first-insertion order (Go's map iteration order is unspecified; none of
the properties proved here depend on the order). -/
structure DataStruct where
  requestID : String
  timeInMillis : Int
  tokenData : List (String × TokenInfo)
deriving DecidableEq

/-- `models.ApiResponse`: the decoded market envelope. -/
structure ApiResponse where
  data : DataStruct
  success : Bool
deriving DecidableEq

/-- The zero `models.ApiResponse`. -/
def emptyApiResponse : ApiResponse := ⟨⟨"", 0, []⟩, false⟩

/-- One JSON object field applied to a partially-decoded `Ohlc`; unknown
fields (such as the upstream `interval` and `ts`) are ignored. -/
def applyOhlcField (o : Ohlc) (kv : String × Json) : Option Ohlc :=
  let k := asciiLower kv.1
  if k = "open" then
    match kv.2 with
    | Json.num n => some { o with open_ := n }
    | Json.null => some o
    | _ => none
  else if k = "high" then
    match kv.2 with
    | Json.num n => some { o with high := n }
    | Json.null => some o
    | _ => none
  else if k = "low" then
    match kv.2 with
    | Json.num n => some { o with low := n }
    | Json.null => some o
    | _ => none
  else if k = "close" then
    match kv.2 with
    | Json.num n => some { o with close := n }
    | Json.null => some o
    | _ => none
  else if k = "volume" then
    match kv.2 with
    | Json.num n => some { o with volume := n }
    | Json.null => some o
    | _ => none
  else some o

/-- One JSON object field applied to a partially-decoded `TokenInfo`;
field names match the struct tags ASCII-case-insensitively; a `null`
value leaves the field unchanged; `ohlc: null` leaves the pointer nil. -/
def applyTokenField (t : TokenInfo) (kv : String × Json) : Option TokenInfo :=
  let k := asciiLower kv.1
  if k = "timestamp" then
    match kv.2 with
    | Json.str s => some { t with timestamp := s }
    | Json.null => some t
    | _ => none
  else if k = "lasttradetime" then
    match kv.2 with
    | Json.str s => some { t with lastTradeTime := s }
    | Json.null => some t
    | _ => none
  else if k = "lastprice" then
    match kv.2 with
    | Json.num n => some { t with lastPrice := n }
    | Json.null => some t
    | _ => none
  else if k = "closeprice" then
    match kv.2 with
    | Json.num n => some { t with closePrice := n }
    | Json.null => some t
    | _ => none
  else if k = "lastquantity" then
    match kv.2 with
    | Json.num n => some { t with lastQuantity := n }
    | Json.null => some t
    | _ => none
  else if k = "buyquantity" then
    match kv.2 with
    | Json.num n => some { t with buyQuantity := n }
    | Json.null => some t
    | _ => none
  else if k = "sellquantity" then
    match kv.2 with
    | Json.num n => some { t with sellQuantity := n }
    | Json.null => some t
    | _ => none
  else if k = "volume" then
    match kv.2 with
    | Json.num n => some { t with volume := n }
    | Json.null => some t
    | _ => none
  else if k = "averageprice" then
    match kv.2 with
    | Json.num n => some { t with averagePrice := n }
    | Json.null => some t
    | _ => none
  else if k = "oi" then
    match kv.2 with
    | Json.num n => some { t with oi := n }
    | Json.null => some t
    | _ => none
  else if k = "poi" then
    match kv.2 with
    | Json.num n => some { t with poi := n }
    | Json.null => some t
    | _ => none
  else if k = "oidayhigh" then
    match kv.2 with
    | Json.num n => some { t with oiDayHigh := n }
    | Json.null => some t
    | _ => none
  else if k = "oidaylow" then
    match kv.2 with
    | Json.num n => some { t with oiDayLow := n }
    | Json.null => some t
    | _ => none
  else if k = "netchange" then
    match kv.2 with
    | Json.num n => some { t with netChange := n }
    | Json.null => some t
    | _ => none
  else if k = "lowercircuitlimit" then
    match kv.2 with
    | Json.num n => some { t with lowerCircuitLimit := n }
    | Json.null => some t
    | _ => none
  else if k = "uppercircuitlimit" then
    match kv.2 with
    | Json.num n => some { t with upperCircuitLimit := n }
    | Json.null => some t
    | _ => none
  else if k = "yl" then
    match kv.2 with
    | Json.num n => some { t with yl := n }
    | Json.null => some t
    | _ => none
  else if k = "yh" then
    match kv.2 with
    | Json.num n => some { t with yh := n }
    | Json.null => some t
    | _ => none
  else if k = "ohlc" then
    match kv.2 with
    | Json.obj fs =>
      (decFields applyOhlcField (t.ohlc.getD zeroOhlc) fs).map
        (fun o => { t with ohlc := some o })
    | Json.null => some t
    | _ => none
  else some t

/-- `json.Unmarshal` of one JSON value into `models.TokenInfo` (a map
element, freshly zeroed by Go for each key occurrence). -/
def decodeTokenInfo : Json → Option TokenInfo
  | Json.obj fs => decFields applyTokenField emptyTokenInfo fs
  | Json.null => some emptyTokenInfo
  | _ => none

/-- Insert into the modelled token map: overwrite an existing key in
place, else append. -/
def tdInsert (m : List (String × TokenInfo)) (k : String) (v : TokenInfo) :
    List (String × TokenInfo) :=
  if m.any (fun p => p.1 = k) then m.map (fun p => if p.1 = k then (k, v) else p)
  else m ++ [(k, v)]

/-- Decode the fields of a JSON object into the `token_data` map. -/
def decodeTokenData : List (String × TokenInfo) → List (String × Json) →
    Option (List (String × TokenInfo))
  | m, [] => some m
  | m, (k, v) :: fs =>
    match decodeTokenInfo v with
    | none => none
    | some ti => decodeTokenData (tdInsert m k ti) fs

/-- One JSON object field applied to a partially-decoded `DataStruct`. -/
def applyDataField (d : DataStruct) (kv : String × Json) : Option DataStruct :=
  let k := asciiLower kv.1
  if k = "request_id" then
    match kv.2 with
    | Json.str s => some { d with requestID := s }
    | Json.null => some d
    | _ => none
  else if k = "time_in_millis" then
    match kv.2 with
    | Json.num n => some { d with timeInMillis := n }
    | Json.null => some d
    | _ => none
  else if k = "token_data" then
    match kv.2 with
    | Json.obj fs => (decodeTokenData d.tokenData fs).map (fun m => { d with tokenData := m })
    | Json.null => some d
    | _ => none
  else some d

/-- One JSON object field applied to a partially-decoded `ApiResponse`. -/
def applyApiField (r : ApiResponse) (kv : String × Json) : Option ApiResponse :=
  let k := asciiLower kv.1
  if k = "data" then
    match kv.2 with
    | Json.obj fs => (decFields applyDataField r.data fs).map (fun d => { r with data := d })
    | Json.null => some r
    | _ => none
  else if k = "success" then
    match kv.2 with
    | Json.bool b => some { r with success := b }
    | Json.null => some r
    | _ => none
  else some r

/-- `json.Unmarshal(body, &apiResp)` of `cmd/ingest-marketdata/main.go:98`:
decode the request body into `models.ApiResponse`; a JSON object with any
or all fields missing decodes to the zero value of the missing parts. -/
def decodeApiResponse : Json → Option ApiResponse
  | Json.obj fs => decFields applyApiField emptyApiResponse fs
  | Json.null => some emptyApiResponse
  | _ => none

/-- One flattened `market_data` row, the 26 columns of the insert at
`cmd/ingest-marketdata/main.go:112-124`.  `responseTime` carries the raw
millisecond count handed to `time.UnixMilli` (an injective conversion). -/
structure Row where
  requestID : String
  responseTime : Int
  tokenName : String
  timestamp : DateTime
  lastTradeTime : DateTime
  lastPrice : Int
  closePrice : Int
  lastQuantity : Int
  buyQuantity : Int
  sellQuantity : Int
  volume : Int
  averagePrice : Int
  oi : Int
  poi : Int
  oiDayHigh : Int
  oiDayLow : Int
  netChange : Int
  lowerCircuitLimit : Int
  upperCircuitLimit : Int
  yl : Int
  yh : Int
  ohlcOpen : Int
  ohlcHigh : Int
  ohlcLow : Int
  ohlcClose : Int
  ohlcVolume : Int
deriving DecidableEq

/-- The last-trade-time sentinel substitution of
`cmd/ingest-marketdata/main.go:139-142`: the exact anomalous string is
rewritten before parsing, everything else is left untouched. -/
def substLTT (s : String) : String :=
  if s = "1970-01-01 05:30:00" then "1970-01-01 00:00:00" else s

/-- The per-token body of the flattening loop at
`cmd/ingest-marketdata/main.go:136-164`: parse the two timestamps
(discarding parse errors, per the `_` in the source), apply the sentinel
substitution, default the OHLC fields to zero when the pointer is nil,
and assemble one row. -/
def flattenToken (requestID : String) (responseTime : Int) (tokenName : String)
    (info : TokenInfo) : Row :=
  let ts := goParseD info.timestamp
  let ltt := goParseD (substLTT info.lastTradeTime)
  let oh := info.ohlc.getD zeroOhlc
  { requestID := requestID
    responseTime := responseTime
    tokenName := tokenName
    timestamp := ts
    lastTradeTime := ltt
    lastPrice := info.lastPrice
    closePrice := info.closePrice
    lastQuantity := info.lastQuantity
    buyQuantity := info.buyQuantity
    sellQuantity := info.sellQuantity
    volume := info.volume
    averagePrice := info.averagePrice
    oi := info.oi
    poi := info.poi
    oiDayHigh := info.oiDayHigh
    oiDayLow := info.oiDayLow
    netChange := info.netChange
    lowerCircuitLimit := info.lowerCircuitLimit
    upperCircuitLimit := info.upperCircuitLimit
    yl := info.yl
    yh := info.yh
    ohlcOpen := oh.open_
    ohlcHigh := oh.high
    ohlcLow := oh.low
    ohlcClose := oh.close
    ohlcVolume := oh.volume }

/-- The market snapshot flattener: the pure part of the loop at
`cmd/ingest-marketdata/main.go:136-171`, one row per `token_data`
entry. -/
def flatten (resp : ApiResponse) : List Row :=
  resp.data.tokenData.map
    (fun p => flattenToken resp.data.requestID resp.data.timeInMillis p.1 p.2)

/-- Failure cases of the transactional insert, mirroring the error exits
of both ingestion handlers. -/
inductive WriteError where
  | beginFailed
  | prepareFailed
  | execFailed (i : Nat)
  | commitFailed
deriving DecidableEq

/-- Oracle for the underlying store: which of the transactional steps
succeed on this call (`execOk i` decides the fate of the i-th row's
insert). -/
structure DbOracle where
  beginOk : Bool
  prepareOk : Bool
  execOk : Nat → Bool
  commitOk : Bool

/-- Index of the first row whose insert fails, if any: the insert loop of
both handlers stops at the first `ExecContext` error. -/
def firstFail (o : DbOracle) : Nat → List α → Option Nat
  | _, [] => none
  | i, _ :: rs => if o.execOk i then firstFail o (i + 1) rs else some i

/-- The atomic row writer shared by both ingestion handlers
(`cmd/ingest-events/main.go:309-385`, `cmd/ingest-marketdata/main.go:104-177`):
begin a transaction, prepare one insert statement, execute it once per
row, roll back on the first failure (the pre-failure inserts never become
visible), and commit only if every execution succeeded.  The second
component is the store state visible to readers after the call. -/
def writeAll (o : DbOracle) (store rows : List α) : Except WriteError Nat × List α :=
  match o.beginOk with
  | false => (Except.error WriteError.beginFailed, store)
  | true =>
    match o.prepareOk with
    | false => (Except.error WriteError.prepareFailed, store)
    | true =>
      match firstFail o 0 rows with
      | some i => (Except.error (WriteError.execFailed i), store)
      | none =>
        match o.commitOk with
        | false => (Except.error WriteError.commitFailed, store)
        | true => (Except.ok rows.length, store ++ rows)

/-- Outcome reported to the HTTP caller, abstracted from the status codes
and bodies written by the handlers. -/
inductive IngestResult where
  | methodNotAllowed
  | badRequest (msg : String)
  | serverError (msg : String)
  | accepted (ingested : Nat)
deriving DecidableEq

/-- The post-decode part of `handleIngest` in
`cmd/ingest-marketdata/main.go:104-185`: flatten the envelope, write all
rows in one transaction, and on success respond `202` with
`ingested = len(token_data)`. -/
def processEnvelope (resp : ApiResponse) (o : DbOracle) (store : List Row) :
    IngestResult × List Row :=
  match writeAll o store (flatten resp) with
  | (Except.ok _, s) => (IngestResult.accepted resp.data.tokenData.length, s)
  | (Except.error _, s) => (IngestResult.serverError "Server error", s)

/-- `handleIngest` of `cmd/ingest-marketdata/main.go:84-185` on a POST
body that is structurally valid JSON: decode, then flatten and write. -/
def handleIngestMarket (body : Json) (o : DbOracle) (store : List Row) :
    IngestResult × List Row :=
  match decodeApiResponse body with
  | none => (IngestResult.badRequest "Failed to decode JSON", store)
  | some resp => processEnvelope resp o store

/-- `handleIngest` of `cmd/ingest-events/main.go` on a POST body that is
structurally valid JSON: flexible decode, reject an empty batch before
any database work, otherwise write all events in one transaction. -/
def handleIngestEvents (body : Json) (o : DbOracle) (store : List Event) :
    IngestResult × List Event :=
  match flexDecodeEvents body with
  | none => (IngestResult.badRequest "Invalid JSON format", store)
  | some events =>
    if events.length = 0 then (IngestResult.badRequest "No events provided", store)
    else
      match writeAll o store events with
      | (Except.ok n, s) => (IngestResult.accepted n, s)
      | (Except.error _, s) => (IngestResult.serverError "Database insert failed", s)

/-- Days of the week, as in Go's `time.Weekday`. -/
inductive Weekday where
  | sunday
  | monday
  | tuesday
  | wednesday
  | thursday
  | friday
  | saturday
deriving DecidableEq

/-- `time.Now().In(c.Loc)` reduced to what `isMarketOpen` observes: the
weekday and the second of the day in the configured zone.  The `AddDate`
calls at `cmd/on-demand-fetcher/main.go:275-276` transplant the
configured window's clock times onto `now`'s own date, so `After`/`Before`
compare pure times of day (modelled at second granularity; the configured
times carry zero seconds and nanoseconds). -/
structure LocalInstant where
  weekday : Weekday
  secOfDay : Nat
deriving DecidableEq

/-- `isMarketOpen` of `cmd/on-demand-fetcher/main.go:269-278`: false on
Saturday and Sunday, otherwise strictly between the window start and the
window end (`now.After(start) && now.Before(end)`). -/
def isMarketOpen (now : LocalInstant) (startSec endSec : Nat) : Bool :=
  if now.weekday = Weekday.saturday ∨ now.weekday = Weekday.sunday then false
  else decide (startSec < now.secOfDay) && decide (now.secOfDay < endSec)

/-! ## Helper lemmas -/

theorem firstFail_none_all_ok {α : Type} (o : DbOracle) :
    ∀ (rows : List α) (k : Nat), firstFail o k rows = none →
      ∀ j, j < rows.length → o.execOk (k + j) = true := by
  intro rows
  induction rows with
  | nil => intro k _ j hj; simp at hj
  | cons r rs ih =>
    intro k h j hj
    cases hk : o.execOk k with
    | false => simp [firstFail, hk] at h
    | true =>
      simp only [firstFail, hk, if_true] at h
      cases j with
      | zero => simpa using hk
      | succ j2 =>
        have e : k + (j2 + 1) = k + 1 + j2 := by omega
        rw [e]
        exact ih (k + 1) h j2 (by simpa using Nat.lt_of_succ_lt_succ hj)

theorem firstFail_isSome_of_fail {α : Type} (o : DbOracle) (rows : List α)
    (hfail : ∃ j, j < rows.length ∧ o.execOk j = false) :
    firstFail o 0 rows ≠ none := by
  intro hnone
  obtain ⟨j, hj, hno⟩ := hfail
  have := firstFail_none_all_ok o rows 0 hnone j hj
  simp at this
  rw [this] at hno
  exact Bool.true_eq_false.mp hno

theorem writeAll_ok_spec {α : Type} {o : DbOracle} {store rows : List α} {n : Nat}
    (h : (writeAll o store rows).1 = Except.ok n) :
    n = rows.length ∧ (writeAll o store rows).2 = store ++ rows ∧
    o.beginOk = true ∧ o.prepareOk = true ∧ o.commitOk = true ∧
    firstFail o 0 rows = none := by
  cases hb : o.beginOk with
  | false => simp [writeAll, hb] at h
  | true =>
    cases hp : o.prepareOk with
    | false => simp [writeAll, hb, hp] at h
    | true =>
      cases hf : firstFail o 0 rows with
      | some i => simp [writeAll, hb, hp, hf] at h
      | none =>
        cases hc : o.commitOk with
        | false => simp [writeAll, hb, hp, hf, hc] at h
        | true =>
          have hn : rows.length = n := by simpa [writeAll, hb, hp, hf, hc] using h
          exact ⟨hn.symm, by simp [writeAll, hb, hp, hf, hc], rfl, rfl, rfl, rfl⟩

theorem writeAll_error_snd {α : Type} {o : DbOracle} {store rows : List α} {e : WriteError}
    (h : (writeAll o store rows).1 = Except.error e) :
    (writeAll o store rows).2 = store := by
  cases hb : o.beginOk with
  | false => simp [writeAll, hb]
  | true =>
    cases hp : o.prepareOk with
    | false => simp [writeAll, hb, hp]
    | true =>
      cases hf : firstFail o 0 rows with
      | some i => simp [writeAll, hb, hp, hf]
      | none =>
        cases hc : o.commitOk with
        | false => simp [writeAll, hb, hp, hf, hc]
        | true => simp [writeAll, hb, hp, hf, hc] at h

theorem mapOpt_length {α β : Type} (f : α → Option β) :
    ∀ (xs : List α) (ys : List β), mapOpt f xs = some ys → ys.length = xs.length := by
  intro xs
  induction xs with
  | nil =>
    intro ys h
    simp only [mapOpt, Option.some.injEq] at h
    simp [← h]
  | cons x xs2 ih =>
    intro ys h
    simp only [mapOpt] at h
    cases hf : f x with
    | none => rw [hf] at h; exact absurd h (by simp)
    | some y =>
      rw [hf] at h
      cases hm : mapOpt f xs2 with
      | none => rw [hm] at h; exact absurd h (by simp)
      | some ys2 =>
        rw [hm] at h
        simp only [Option.some.injEq] at h
        rw [← h]
        simp [ih ys2 hm]

theorem processEnvelope_cases (resp : ApiResponse) (o : DbOracle) (store : List Row) :
    (processEnvelope resp o store =
       (IngestResult.accepted resp.data.tokenData.length, store ++ flatten resp) ∧
     (writeAll o store (flatten resp)).1 = Except.ok (flatten resp).length) ∨
    (processEnvelope resp o store = (IngestResult.serverError "Server error", store) ∧
     ∃ e, (writeAll o store (flatten resp)).1 = Except.error e) := by
  rcases hw : writeAll o store (flatten resp) with ⟨f, s⟩
  cases f with
  | ok n =>
    left
    have hspec := writeAll_ok_spec
      (show (writeAll o store (flatten resp)).1 = Except.ok n from by rw [hw])
    have hs : s = store ++ flatten resp := by
      have h2 := hspec.2.1
      rw [hw] at h2
      exact h2
    constructor
    · simp [processEnvelope, hw, hs]
    · simp [hspec.1]
  | error e =>
    right
    have hs : s = store := by
      have h2 := writeAll_error_snd
        (show (writeAll o store (flatten resp)).1 = Except.error e from by rw [hw])
      rw [hw] at h2
      exact h2
    exact ⟨by simp [processEnvelope, hw, hs], e, rfl⟩

/-- C1: one row is produced per `token_data` entry; when the market ingest
handler reports success it reports exactly that count and the visible store
gains exactly the flattened rows, and on a server error the store is
unchanged — no partial output. -/
theorem flatten_row_count_atomic (resp : ApiResponse) (o : DbOracle) (store : List Row) :
    (flatten resp).length = resp.data.tokenData.length ∧
    (∀ n, (processEnvelope resp o store).1 = IngestResult.accepted n →
      n = resp.data.tokenData.length ∧
      (processEnvelope resp o store).2 = store ++ flatten resp) ∧
    (∀ m, (processEnvelope resp o store).1 = IngestResult.serverError m →
      (processEnvelope resp o store).2 = store) := by
  refine ⟨by simp [flatten], ?_, ?_⟩
  · intro n hn
    rcases processEnvelope_cases resp o store with ⟨hpe, _⟩ | ⟨hpe, _⟩
    · rw [hpe] at hn ⊢
      simp only at hn
      exact ⟨(IngestResult.accepted.injEq _ _ ▸ hn).symm, rfl⟩
    · rw [hpe] at hn
      simp at hn
  · intro m hm
    rcases processEnvelope_cases resp o store with ⟨hpe, _⟩ | ⟨hpe, _⟩
    · rw [hpe] at hm
      simp at hm
    · rw [hpe]

/-- Witness for C1 at a concrete two-instrument envelope with an all-ok
store oracle. -/
theorem flatten_row_count_atomic_witness :
    (processEnvelope ⟨⟨"r", 7, [("A", emptyTokenInfo), ("B", emptyTokenInfo)]⟩, true⟩
        ⟨true, true, fun _ => true, true⟩ []).2 =
      [] ++ flatten ⟨⟨"r", 7, [("A", emptyTokenInfo), ("B", emptyTokenInfo)]⟩, true⟩ :=
  ((flatten_row_count_atomic ⟨⟨"r", 7, [("A", emptyTokenInfo), ("B", emptyTokenInfo)]⟩, true⟩
      ⟨true, true, fun _ => true, true⟩ []).2.1 2 rfl).2

/-- C3: the atomic row writer either inserts every row and commits — the
visible store becomes the old store followed by exactly the given rows —
or, when any single row's insert fails, returns a WriteError with the
visible store unchanged; an error outcome never changes the store. -/
theorem writeAll_atomic {α : Type} (o : DbOracle) (store rows : List α) :
    (∀ n, (writeAll o store rows).1 = Except.ok n →
      n = rows.length ∧ (writeAll o store rows).2 = store ++ rows ∧
      o.commitOk = true ∧ ∀ j, j < rows.length → o.execOk j = true) ∧
    (∀ e, (writeAll o store rows).1 = Except.error e →
      (writeAll o store rows).2 = store) ∧
    (o.beginOk = true → o.prepareOk = true →
      (∃ j, j < rows.length ∧ o.execOk j = false) →
      (∃ i, (writeAll o store rows).1 = Except.error (WriteError.execFailed i)) ∧
      (writeAll o store rows).2 = store) := by
  refine ⟨?_, ?_, ?_⟩
  · intro n h
    obtain ⟨h1, h2, _, _, h5, h6⟩ := writeAll_ok_spec h
    refine ⟨h1, h2, h5, ?_⟩
    intro j hj
    simpa using firstFail_none_all_ok o rows 0 h6 j hj
  · intro e h
    exact writeAll_error_snd h
  · intro hb hp hfail
    cases hf : firstFail o 0 rows with
    | none => exact absurd hf (firstFail_isSome_of_fail o rows hfail)
    | some i =>
      constructor
      · exact ⟨i, by simp [writeAll, hb, hp, hf]⟩
      · simp [writeAll, hb, hp, hf]

/-- Witness for C3: with an oracle that fails the third row's insert, the
call errors and a subsequent read of the destination shows none of the
rows. -/
theorem writeAll_atomic_witness :
    (∃ i, (writeAll ⟨true, true, fun i => decide (i ≠ 2), true⟩ ([] : List Nat)
        [10, 20, 30]).1 = Except.error (WriteError.execFailed i)) ∧
    (writeAll ⟨true, true, fun i => decide (i ≠ 2), true⟩ ([] : List Nat) [10, 20, 30]).2 = [] :=
  (writeAll_atomic ⟨true, true, fun i => decide (i ≠ 2), true⟩ [] [10, 20, 30]).2.2
    rfl rfl ⟨2, by decide, by decide⟩

/-- C9: the market pipeline never inspects the envelope's success flag —
two envelopes identical except for `success` flatten to the same rows and
drive the handler to the same response and the same stored state. -/
theorem success_flag_ignored (d : DataStruct) (s1 s2 : Bool) (o : DbOracle)
    (store : List Row) :
    flatten ⟨d, s1⟩ = flatten ⟨d, s2⟩ ∧
    processEnvelope ⟨d, s1⟩ o store = processEnvelope ⟨d, s2⟩ o store :=
  ⟨rfl, rfl⟩

/-- C10: an envelope whose `token_data` is empty is accepted: the
transaction commits with zero inserts, the store is unchanged and the
caller gets `ingested = 0`; the empty JSON object decodes to exactly such
an envelope and is likewise accepted end to end — no non-emptiness check
exists in the market pipeline. -/
theorem empty_token_data_accepted :
    (∀ (resp : ApiResponse) (o : DbOracle) (store : List Row),
      resp.data.tokenData = [] → o.beginOk = true → o.prepareOk = true →
      o.commitOk = true →
      processEnvelope resp o store = (IngestResult.accepted 0, store)) ∧
    decodeApiResponse (Json.obj []) = some emptyApiResponse ∧
    (∀ (o : DbOracle) (store : List Row),
      o.beginOk = true → o.prepareOk = true → o.commitOk = true →
      handleIngestMarket (Json.obj []) o store = (IngestResult.accepted 0, store)) := by
  have hmain : ∀ (resp : ApiResponse) (o : DbOracle) (store : List Row),
      resp.data.tokenData = [] → o.beginOk = true → o.prepareOk = true →
      o.commitOk = true →
      processEnvelope resp o store = (IngestResult.accepted 0, store) := by
    intro resp o store h hb hp hc
    have hfl : flatten resp = [] := by simp [flatten, h]
    simp [processEnvelope, writeAll, hfl, hb, hp, hc, firstFail, h]
  refine ⟨hmain, rfl, ?_⟩
  intro o store hb hp hc
  have : handleIngestMarket (Json.obj []) o store = processEnvelope emptyApiResponse o store := rfl
  rw [this]
  exact hmain emptyApiResponse o store rfl hb hp hc

/-- Witness for C10 at the empty JSON object and an all-ok oracle. -/
theorem empty_token_data_accepted_witness :
    handleIngestMarket (Json.obj []) ⟨true, true, fun _ => true, true⟩ ([] : List Row) =
      (IngestResult.accepted 0, []) :=
  empty_token_data_accepted.2.2 ⟨true, true, fun _ => true, true⟩ [] rfl rfl rfl

/-- C2 counterexample: an envelope whose single instrument has an
unparsable `timestamp` is not rejected — the market handler accepts it
and persists one row carrying the zero time, so `flatten` does not fail
on malformed timestamps as the claim states. -/
theorem flatten_bad_timestamp_cex :
    goTimeParse "not a timestamp" = none ∧
    (processEnvelope
        ⟨⟨"req-1", 0, [("TOK", { emptyTokenInfo with timestamp := "not a timestamp" })]⟩, true⟩
        ⟨true, true, fun _ => true, true⟩ []).1 = IngestResult.accepted 1 ∧
    (processEnvelope
        ⟨⟨"req-1", 0, [("TOK", { emptyTokenInfo with timestamp := "not a timestamp" })]⟩, true⟩
        ⟨true, true, fun _ => true, true⟩ []).2 =
      [{ requestID := "req-1", responseTime := 0, tokenName := "TOK",
         timestamp := goZeroTime, lastTradeTime := goZeroTime,
         lastPrice := 0, closePrice := 0, lastQuantity := 0, buyQuantity := 0,
         sellQuantity := 0, volume := 0, averagePrice := 0, oi := 0, poi := 0,
         oiDayHigh := 0, oiDayLow := 0, netChange := 0, lowerCircuitLimit := 0,
         upperCircuitLimit := 0, yl := 0, yh := 0, ohlcOpen := 0, ohlcHigh := 0,
         ohlcLow := 0, ohlcClose := 0, ohlcVolume := 0 }] := by
  refine ⟨by decide, rfl, rfl⟩

/-- C2 (amended): a `timestamp` that fails to parse does not fail the
envelope — the parse error is discarded, the affected row carries the
zero time (0001-01-01 00:00:00), a well-formed timestamp is carried
verbatim, and the flattener still emits exactly one row per entry. -/
theorem flatten_ignores_bad_timestamps (resp : ApiResponse) (rid : String) (tm : Int)
    (name : String) (info : TokenInfo) :
    (flatten resp).length = resp.data.tokenData.length ∧
    (goTimeParse info.timestamp = none →
      (flattenToken rid tm name info).timestamp = goZeroTime) ∧
    (∀ dt, goTimeParse info.timestamp = some dt →
      (flattenToken rid tm name info).timestamp = dt) := by
  refine ⟨by simp [flatten], ?_, ?_⟩
  · intro h
    simp [flattenToken, goParseD, h]
  · intro dt h
    simp [flattenToken, goParseD, h]

/-- Witness for the amended C2 at a concrete malformed and a concrete
well-formed timestamp. -/
theorem flatten_ignores_bad_timestamps_witness :
    (flattenToken "r" 0 "TOK" { emptyTokenInfo with timestamp := "oops" }).timestamp =
      goZeroTime ∧
    (flattenToken "r" 0 "TOK" { emptyTokenInfo with timestamp := "2025-11-07 06:52:38" }).timestamp =
      ⟨2025, 11, 7, 6, 52, 38⟩ :=
  ⟨(flatten_ignores_bad_timestamps ⟨⟨"r", 0, []⟩, true⟩ "r" 0 "TOK"
      { emptyTokenInfo with timestamp := "oops" }).2.1 (by decide),
   (flatten_ignores_bad_timestamps ⟨⟨"r", 0, []⟩, true⟩ "r" 0 "TOK"
      { emptyTokenInfo with timestamp := "2025-11-07 06:52:38" }).2.2
      ⟨2025, 11, 7, 6, 52, 38⟩ (by decide)⟩

/-- C4: the last-trade-time string is rewritten before parsing exactly
when it equals the sentinel `1970-01-01 05:30:00`, in which case the
substituted `1970-01-01 00:00:00` is what gets parsed (yielding midnight
1970-01-01); any other value, near misses included, is parsed
unmodified. -/
theorem sentinel_substitution_spec (rid : String) (tm : Int) (name : String)
    (info : TokenInfo) :
    (info.lastTradeTime = "1970-01-01 05:30:00" →
      substLTT info.lastTradeTime = "1970-01-01 00:00:00" ∧
      (flattenToken rid tm name info).lastTradeTime = ⟨1970, 1, 1, 0, 0, 0⟩) ∧
    (info.lastTradeTime ≠ "1970-01-01 05:30:00" →
      substLTT info.lastTradeTime = info.lastTradeTime ∧
      (flattenToken rid tm name info).lastTradeTime = goParseD info.lastTradeTime) ∧
    goTimeParse "1970-01-01 00:00:00" = some ⟨1970, 1, 1, 0, 0, 0⟩ := by
  refine ⟨?_, ?_, by decide⟩
  · intro h
    refine ⟨by simp [substLTT, h], ?_⟩
    show goParseD (substLTT info.lastTradeTime) = ⟨1970, 1, 1, 0, 0, 0⟩
    rw [substLTT, if_pos h]
    decide
  · intro h
    refine ⟨by simp [substLTT, h], ?_⟩
    show goParseD (substLTT info.lastTradeTime) = goParseD info.lastTradeTime
    rw [substLTT, if_neg h]

/-- Witness for C4 at the exact sentinel and at a near-miss string one
second away. -/
theorem sentinel_substitution_spec_witness :
    (flattenToken "r" 0 "TOK"
        { emptyTokenInfo with lastTradeTime := "1970-01-01 05:30:00" }).lastTradeTime =
      ⟨1970, 1, 1, 0, 0, 0⟩ ∧
    (flattenToken "r" 0 "TOK"
        { emptyTokenInfo with lastTradeTime := "1970-01-01 05:30:01" }).lastTradeTime =
      goParseD "1970-01-01 05:30:01" :=
  ⟨((sentinel_substitution_spec "r" 0 "TOK"
      { emptyTokenInfo with lastTradeTime := "1970-01-01 05:30:00" }).1 rfl).2,
   ((sentinel_substitution_spec "r" 0 "TOK"
      { emptyTokenInfo with lastTradeTime := "1970-01-01 05:30:01" }).2.1 (by decide)).2⟩

/-- C5: when `ohlc` is present the row copies its five fields verbatim;
when it is absent all five OHLC row fields are zero; and the rows emitted
for the other instruments of the same envelope are unaffected by the
middle instrument's snapshot. -/
theorem ohlc_copy_default (rid : String) (tm : Int) (name : String) (info : TokenInfo) :
    (∀ oh, info.ohlc = some oh →
      (flattenToken rid tm name info).ohlcOpen = oh.open_ ∧
      (flattenToken rid tm name info).ohlcHigh = oh.high ∧
      (flattenToken rid tm name info).ohlcLow = oh.low ∧
      (flattenToken rid tm name info).ohlcClose = oh.close ∧
      (flattenToken rid tm name info).ohlcVolume = oh.volume) ∧
    (info.ohlc = none →
      (flattenToken rid tm name info).ohlcOpen = 0 ∧
      (flattenToken rid tm name info).ohlcHigh = 0 ∧
      (flattenToken rid tm name info).ohlcLow = 0 ∧
      (flattenToken rid tm name info).ohlcClose = 0 ∧
      (flattenToken rid tm name info).ohlcVolume = 0) ∧
    (∀ (s : Bool) (pre post : List (String × TokenInfo)),
      flatten ⟨⟨rid, tm, pre ++ (name, info) :: post⟩, s⟩ =
        pre.map (fun p => flattenToken rid tm p.1 p.2) ++
          flattenToken rid tm name info ::
            post.map (fun p => flattenToken rid tm p.1 p.2)) := by
  refine ⟨?_, ?_, ?_⟩
  · intro oh h
    refine ⟨?_, ?_, ?_, ?_, ?_⟩ <;> simp [flattenToken, h]
  · intro h
    refine ⟨?_, ?_, ?_, ?_, ?_⟩ <;> simp [flattenToken, h, zeroOhlc]
  · intro s pre post
    simp [flatten]

/-- Witness for C5 at a present and an absent OHLC. -/
theorem ohlc_copy_default_witness :
    (flattenToken "r" 0 "A"
        { emptyTokenInfo with ohlc := some ⟨11, 22, 33, 44, 55⟩ }).ohlcOpen = 11 ∧
    (flattenToken "r" 0 "B" emptyTokenInfo).ohlcVolume = 0 :=
  ⟨((ohlc_copy_default "r" 0 "A"
      { emptyTokenInfo with ohlc := some ⟨11, 22, 33, 44, 55⟩ }).1
      ⟨11, 22, 33, 44, 55⟩ rfl).1,
   ((ohlc_copy_default "r" 0 "B" emptyTokenInfo).2.1 rfl).2.2.2.2⟩

/-- C6: the flexible decoder decodes an array payload element-wise in
order (N rows out of N elements, N possibly 0); only when the array
decode fails does it fall back to decoding a single record, returned as a
one-element sequence equal to the direct parse; when both fail it reports
a decode error. -/
theorem flexDecode_spec (j : Json) :
    (∀ xs evs, j = Json.arr xs → mapOpt decodeEvent xs = some evs →
      flexDecodeEvents j = some evs ∧ evs.length = xs.length) ∧
    (decodeEventArray j = none → ∀ e, decodeEvent j = some e →
      flexDecodeEvents j = some [e]) ∧
    (decodeEventArray j = none → decodeEvent j = none →
      flexDecodeEvents j = none) := by
  refine ⟨?_, ?_, ?_⟩
  · intro xs evs hj hm
    subst hj
    exact ⟨by simp [flexDecodeEvents, decodeEventArray, hm],
      mapOpt_length decodeEvent xs evs hm⟩
  · intro ha e he
    simp [flexDecodeEvents, ha, he]
  · intro ha he
    simp [flexDecodeEvents, ha, he]

/-- Witness for C6: a two-element array decodes to two events in order, a
bare object falls back to a one-element sequence, and a bare string fails
both attempts. -/
theorem flexDecode_spec_witness :
    flexDecodeEvents (Json.arr [Json.obj [], Json.obj [("level", Json.str "INFO")]]) =
      some [emptyEvent, { emptyEvent with level := "INFO" }] ∧
    flexDecodeEvents (Json.obj [("level", Json.str "WARN")]) =
      some [{ emptyEvent with level := "WARN" }] ∧
    flexDecodeEvents (Json.str "nope") = none :=
  ⟨((flexDecode_spec (Json.arr [Json.obj [], Json.obj [("level", Json.str "INFO")]])).1
      [Json.obj [], Json.obj [("level", Json.str "INFO")]]
      [emptyEvent, { emptyEvent with level := "INFO" }] rfl (by decide)).1,
   (flexDecode_spec (Json.obj [("level", Json.str "WARN")])).2.1 rfl
      { emptyEvent with level := "WARN" } (by decide),
   (flexDecode_spec (Json.str "nope")).2.2 rfl rfl⟩

/-- C7: the market-hours gate is false on Saturday and Sunday; on the
other weekdays it is true exactly when the current time of day lies
strictly between the window start and the window end, and in particular
it is false at exactly the start and at exactly the end of the window. -/
theorem isMarketOpen_spec (now : LocalInstant) (startSec endSec : Nat) :
    ((now.weekday = Weekday.saturday ∨ now.weekday = Weekday.sunday) →
      isMarketOpen now startSec endSec = false) ∧
    (now.weekday ≠ Weekday.saturday → now.weekday ≠ Weekday.sunday →
      (isMarketOpen now startSec endSec = true ↔
        startSec < now.secOfDay ∧ now.secOfDay < endSec)) ∧
    (now.secOfDay = startSec → isMarketOpen now startSec endSec = false) ∧
    (now.secOfDay = endSec → isMarketOpen now startSec endSec = false) := by
  refine ⟨?_, ?_, ?_, ?_⟩
  · intro h
    simp [isMarketOpen, h]
  · intro h1 h2
    simp [isMarketOpen, h1, h2]
  · intro h
    by_cases hw : now.weekday = Weekday.saturday ∨ now.weekday = Weekday.sunday
    · simp [isMarketOpen, hw]
    · simp [isMarketOpen, hw, h]
  · intro h
    by_cases hw : now.weekday = Weekday.saturday ∨ now.weekday = Weekday.sunday
    · simp [isMarketOpen, hw]
    · simp [isMarketOpen, hw, h]

/-- Witness for C7 at the spec's example points: Monday 09:14 is closed,
Monday 09:16 is open, Saturday 10:00 is closed, and the exact window
boundaries are closed, for the 09:15-15:30 window (in seconds of day). -/
theorem isMarketOpen_spec_witness :
    isMarketOpen ⟨Weekday.monday, 33240⟩ 33300 55800 = false ∧
    isMarketOpen ⟨Weekday.monday, 33360⟩ 33300 55800 = true ∧
    isMarketOpen ⟨Weekday.saturday, 36000⟩ 33300 55800 = false ∧
    isMarketOpen ⟨Weekday.monday, 33300⟩ 33300 55800 = false ∧
    isMarketOpen ⟨Weekday.monday, 55800⟩ 33300 55800 = false :=
  ⟨by decide,
   ((isMarketOpen_spec ⟨Weekday.monday, 33360⟩ 33300 55800).2.1 (by decide)
      (by decide)).mpr (by decide),
   (isMarketOpen_spec ⟨Weekday.saturday, 36000⟩ 33300 55800).1 (Or.inl rfl),
   (isMarketOpen_spec ⟨Weekday.monday, 33300⟩ 33300 55800).2.2.1 rfl,
   (isMarketOpen_spec ⟨Weekday.monday, 55800⟩ 33300 55800).2.2.2 rfl⟩

/-- C8: the empty JSON array is structurally valid for the decoder — it
decodes to a zero-length sequence — but the events handler rejects it as
"No events provided" before any database work, for every store oracle,
leaving the store untouched. -/
theorem empty_array_rejected (o : DbOracle) (store : List Event) :
    decodeEventArray (Json.arr []) = some [] ∧
    flexDecodeEvents (Json.arr []) = some [] ∧
    handleIngestEvents (Json.arr []) o store =
      (IngestResult.badRequest "No events provided", store) :=
  ⟨rfl, rfl, rfl⟩
